import Mathlib

set_option linter.unusedVariables false
set_option maxHeartbeats 1000000

namespace ParseVideo

/-! Shallow embedding of the `sqleo/parse-video` repository: the SQLite
audit-log store (`src/storage/sqlite.go`), the HTTP handlers of
`src/main.go`, and the library behaviour those two files lean on — Go
`encoding/json` marshalling of `[]string`, SQLite `LIKE` and TEXT
comparison, Go `strings.TrimSpace`, and the `net/http` redirect loop that
drives the handler's `CheckRedirect` hook. -/

/-- Author block of `parser.VideoParseInfo` (the fields the storage layer
flattens: `Uid`, `Name`, `Avatar`). -/
structure Author where
  uid : String
  name : String
  avatar : String
deriving DecidableEq

/-- The canonical resolution output `parser.VideoParseInfo`, as consumed by
`storage.Append` and rebuilt by `storage.Query`. -/
structure VideoParseInfo where
  title : String
  videoUrl : String
  musicUrl : String
  coverUrl : String
  images : List String
  author : Author
deriving DecidableEq

/-- `storage.Input`. -/
structure Input where
  shareURL : String
  videoID : String
deriving DecidableEq

/-- `storage.Record`. -/
structure Record where
  id : Nat
  timestamp : String
  endpoint : String
  source : String
  input : Input
  clientIP : String
  userAgent : String
  result : Option VideoParseInfo
  error : String
deriving DecidableEq

/-- One row of the `records` table: the AUTOINCREMENT integer key plus the
TEXT columns of the schema created in `storage.Init`. -/
structure Row where
  id : Nat
  ts : String
  endpoint : String
  source : String
  shareUrl : String
  videoId : String
  clientIp : String
  userAgent : String
  title : String
  videoUrl : String
  musicUrl : String
  coverUrl : String
  imagesJson : String
  authorUid : String
  authorName : String
  authorAvatar : String
  error : String
deriving DecidableEq

/-- `storage.QueryOptions`. `Start`/`End` are carried already formatted as
the RFC3339 strings the Go code passes to SQLite
(`q.Start.Format(time.RFC3339)`); the `End` field is named `endTs` because
`end` is reserved in Lean. -/
structure QueryOptions where
  start : Option String
  endTs : Option String
  source : String
  endpoint : String
  contains : String
  clientIP : String
  limit : Int
  offset : Int
deriving DecidableEq

/-- The `records` table contents plus SQLite's next AUTOINCREMENT key. -/
structure Store where
  rows : List Row
  nextId : Nat
deriving DecidableEq

/-! ### Go `encoding/json` on `[]string`

`storage.Append` stores `string(json.Marshal(rec.Result.Images))` and
`storage.Query` runs `json.Unmarshal` on that column, ignoring errors. Both
are modelled on `List Char`. -/

/-- Lowercase hex digit, as emitted by Go's JSON encoder. -/
def hexDig (n : Nat) : Char :=
  if n < 10 then Char.ofNat (48 + n) else Char.ofNat (87 + n)

/-- Go `encoding/json` escaping of one character inside a string literal
(default encoder: also HTML-escapes `<`, `>`, `&` and escapes
U+2028/U+2029). -/
def escChar (c : Char) : List Char :=
  if c = '"' then ['\\', '"']
  else if c = '\\' then ['\\', '\\']
  else if c = '\n' then ['\\', 'n']
  else if c = '\r' then ['\\', 'r']
  else if c = '\t' then ['\\', 't']
  else if c.toNat < 0x20 then
    ['\\', 'u', '0', '0', hexDig (c.toNat / 16), hexDig (c.toNat % 16)]
  else if c = '<' then ['\\', 'u', '0', '0', '3', 'c']
  else if c = '>' then ['\\', 'u', '0', '0', '3', 'e']
  else if c = '&' then ['\\', 'u', '0', '0', '2', '6']
  else if c = Char.ofNat 0x2028 then ['\\', 'u', '2', '0', '2', '8']
  else if c = Char.ofNat 0x2029 then ['\\', 'u', '2', '0', '2', '9']
  else [c]

/-- JSON string literal for `s`: quotes around the escaped body. -/
def encodeJStr (s : List Char) : List Char :=
  '"' :: (s.map escChar).flatten ++ ['"']

/-- Comma-separated encoded items of a JSON array body. -/
def encodeItems : List (List Char) → List Char
  | [] => []
  | [x] => encodeJStr x
  | x :: xs => encodeJStr x ++ ',' :: encodeItems xs

/-- Output of Go `json.Marshal` on a `[]string` value. -/
def encodeJArr (l : List (List Char)) : List Char :=
  '[' :: encodeItems l ++ [']']

/-- JSON whitespace. -/
def isJWS (c : Char) : Bool :=
  c = ' ' || c = '\t' || c = '\n' || c = '\r'

/-- Value of one hex digit (either case accepted, as in Go). -/
def hexVal (c : Char) : Option Nat :=
  if '0' ≤ c ∧ c ≤ '9' then some (c.toNat - 48)
  else if 'a' ≤ c ∧ c ≤ 'f' then some (c.toNat - 87)
  else if 'A' ≤ c ∧ c ≤ 'F' then some (c.toNat - 55)
  else none

/-- Four hex digits to a code unit. -/
def hex4 (h1 h2 h3 h4 : Char) : Option Nat :=
  match hexVal h1, hexVal h2, hexVal h3, hexVal h4 with
  | some a, some b, some c, some d => some (a * 4096 + b * 256 + c * 16 + d)
  | _, _, _, _ => none

/-- Decoding of a single `\uXXXX` code unit that is not the start of a
surrogate pair; invalid code points become U+FFFD, as in Go. -/
def uDecode (n : Nat) : Char :=
  if n < 0xD800 ∨ (0xE000 ≤ n ∧ n < 0x110000) then Char.ofNat n
  else Char.ofNat 0xFFFD

/-- Go JSON single-character escapes. -/
def escDecode (c : Char) : Option Char :=
  if c = '"' then some '"'
  else if c = '\\' then some '\\'
  else if c = '/' then some '/'
  else if c = 'b' then some (Char.ofNat 8)
  else if c = 'f' then some (Char.ofNat 12)
  else if c = 'n' then some '\n'
  else if c = 'r' then some '\r'
  else if c = 't' then some '\t'
  else none

/-- Body of a JSON string literal (opening quote already consumed): the
decoded characters plus the input remaining after the closing quote.
Surrogate pairs combine; a lone surrogate decodes to U+FFFD; raw control
characters are rejected (Go `encoding/json` behaviour). `fuel` decreases
once per decoded character and every step consumes at least one input
character, so callers passing `length + 1` can never exhaust it. -/
def parseStrBody : Nat → List Char → Option (List Char × List Char)
  | 0, _ => none
  | _, [] => none
  | fuel + 1, c :: rest =>
    if c = '"' then some ([], rest)
    else if c = '\\' then
      match rest with
      | [] => none
      | e :: r =>
        if e = 'u' then
          match r with
          | h1 :: h2 :: h3 :: h4 :: r2 =>
            match hex4 h1 h2 h3 h4 with
            | none => none
            | some n =>
              if 0xD800 ≤ n ∧ n < 0xDC00 then
                match r2 with
                | '\\' :: 'u' :: g1 :: g2 :: g3 :: g4 :: r3 =>
                  match hex4 g1 g2 g3 g4 with
                  | none => none
                  | some m =>
                    if 0xDC00 ≤ m ∧ m < 0xE000 then
                      (parseStrBody fuel r3).map (fun p =>
                        (Char.ofNat (0x10000 + (n - 0xD800) * 0x400 + (m - 0xDC00)) :: p.1, p.2))
                    else
                      (parseStrBody fuel r2).map (fun p => (Char.ofNat 0xFFFD :: p.1, p.2))
                | _ => (parseStrBody fuel r2).map (fun p => (Char.ofNat 0xFFFD :: p.1, p.2))
              else
                (parseStrBody fuel r2).map (fun p => (uDecode n :: p.1, p.2))
          | _ => none
        else
          match escDecode e with
          | some d => (parseStrBody fuel r).map (fun p => (d :: p.1, p.2))
          | none => none
    else if c.toNat < 0x20 then none
    else (parseStrBody fuel rest).map (fun p => (c :: p.1, p.2))

/-- `parseStrBody` with enough fuel for its input. -/
def parseStrBodyTop (cs : List Char) : Option (List Char × List Char) :=
  parseStrBody (cs.length + 1) cs

/-- One or more comma-separated JSON strings followed by `]`. `fuel` bounds
the number of items; callers pass more fuel than there are input
characters, so it never runs out on well-formed input. -/
def parseItems : Nat → List Char → Option (List (List Char) × List Char)
  | 0, _ => none
  | fuel + 1, cs =>
    match cs.dropWhile isJWS with
    | [] => none
    | c :: body =>
      if c = '"' then
        match parseStrBodyTop body with
        | none => none
        | some (s, rest) =>
          match rest.dropWhile isJWS with
          | [] => none
          | d :: r2 =>
            if d = ',' then
              match parseItems fuel r2 with
              | some (ss, r3) => some (s :: ss, r3)
              | none => none
            else if d = ']' then some ([s], r2)
            else none
      else none

/-- Go `json.Unmarshal` of a byte string into `[]string`; `none` models an
unmarshalling error (in which case `storage.Query` leaves the image list
empty, since the error is discarded). -/
def parseJArr (cs : List Char) : Option (List (List Char)) :=
  match cs.dropWhile isJWS with
  | [] => none
  | c :: rest =>
    if c = '[' then
      match rest.dropWhile isJWS with
      | [] => none
      | d :: r2 =>
        if d = ']' then (if (r2.dropWhile isJWS).isEmpty then some [] else none)
        else
          match parseItems ((d :: r2).length + 1) (d :: r2) with
          | some (ss, r3) => if (r3.dropWhile isJWS).isEmpty then some ss else none
          | none => none
    else none

/-- `string(json.Marshal(l))` for `l : []string`. -/
def jsonEncodeStrings (l : List String) : String :=
  String.mk (encodeJArr (l.map String.data))

/-- `json.Unmarshal([]byte(s), &out)` for `out : []string`. -/
def jsonDecodeStrings (s : String) : Option (List String) :=
  (parseJArr s.data).map (fun l => l.map String.mk)

/-! ### Go `strings.TrimSpace` -/

/-- Characters for which Go `unicode.IsSpace` holds (White_Space). -/
def isGoSpace (c : Char) : Bool :=
  c = ' ' || c = '\t' || c = '\n' || c = Char.ofNat 0x0B || c = Char.ofNat 0x0C
  || c = '\r' || c = Char.ofNat 0x85 || c = Char.ofNat 0xA0 || c = Char.ofNat 0x1680
  || (Char.ofNat 0x2000 ≤ c && c ≤ Char.ofNat 0x200A)
  || c = Char.ofNat 0x2028 || c = Char.ofNat 0x2029 || c = Char.ofNat 0x202F
  || c = Char.ofNat 0x205F || c = Char.ofNat 0x3000

/-- Go `strings.TrimSpace`, applied by `Append` to the error column. -/
def goTrimSpace (s : String) : String :=
  String.mk ((s.data.dropWhile isGoSpace).reverse.dropWhile isGoSpace).reverse

/-! ### SQLite `LIKE` and TEXT comparison -/

/-- SQLite's default ASCII case folding used by `LIKE`. -/
def likeFold (c : Char) : Char :=
  if 'A' ≤ c ∧ c ≤ 'Z' then Char.ofNat (c.toNat + 32) else c

/-- SQLite `LIKE` pattern matching, default configuration
(ASCII-case-insensitive; `%` matches any sequence of characters, `_` any
single character; no ESCAPE clause). -/
def likeMatch : List Char → List Char → Bool
  | [], s => s.isEmpty
  | p :: ps, s =>
    if p = '%' then s.tails.any (fun t => likeMatch ps t)
    else
      match s with
      | [] => false
      | c :: ss => (if p = '_' then true else likeFold p == likeFold c) && likeMatch ps ss

/-- `s LIKE pat` on whole strings. -/
def sqlLike (pat s : String) : Bool :=
  likeMatch pat.data s.data

/-- Boolean: `sub` is an initial segment of `t`. -/
def leadEq : List Char → List Char → Bool
  | [], _ => true
  | _ :: _, [] => false
  | a :: as, b :: bs => a == b && leadEq as bs

/-- Boolean: `sub` occurs contiguously inside `s`. -/
def containsSeq (sub s : List Char) : Bool :=
  s.tails.any (fun t => leadEq sub t)

/-- Literal substring test on strings (what the spec calls "contains"). -/
def containsStr (sub s : String) : Bool :=
  containsSeq sub.data s.data

/-- SQLite TEXT comparison `s <= t` (`memcmp` order; on UTF-8 data this is
code-point lexicographic order). -/
def lexLe : List Char → List Char → Bool
  | [], _ => true
  | _ :: _, [] => false
  | a :: as, b :: bs => if a = b then lexLe as bs else decide (a < b)

/-- TEXT `<=` on strings, as used for the `ts` range filters. -/
def strLe (s t : String) : Bool := lexLe s.data t.data

/-! ### `storage.Append` and `storage.Query` -/

/-- The row inserted by `storage.Append` for record `rec` at clock reading
`ts`, keyed `id`: flattened result columns are empty strings for a nil
`Result`, and `images_json` is only written when the image list is
non-empty. The error column is `strings.TrimSpace(rec.Error)`. -/
def mkRow (id : Nat) (ts : String) (rec : Record) : Row :=
  match rec.result with
  | none =>
    ⟨id, ts, rec.endpoint, rec.source, rec.input.shareURL, rec.input.videoID,
     rec.clientIP, rec.userAgent, "", "", "", "", "", "", "", "",
     goTrimSpace rec.error⟩
  | some r =>
    ⟨id, ts, rec.endpoint, rec.source, rec.input.shareURL, rec.input.videoID,
     rec.clientIP, rec.userAgent, r.title, r.videoUrl, r.musicUrl, r.coverUrl,
     (if 0 < r.images.length then jsonEncodeStrings r.images else ""),
     r.author.uid, r.author.name, r.author.avatar,
     goTrimSpace rec.error⟩

/-- `storage.Append`: one INSERT; SQLite assigns the next AUTOINCREMENT id. -/
def appendRecord (st : Store) (rec : Record) (ts : String) : Store :=
  { rows := st.rows ++ [mkRow st.nextId ts rec], nextId := st.nextId + 1 }

/-- The WHERE clause built in `storage.Query`, applied to one row: every
supplied filter must hold, and `Contains` becomes
`share_url LIKE '%c%' OR video_id LIKE '%c%'`. -/
def rowMatches (q : QueryOptions) (r : Row) : Bool :=
  (match q.start with | none => true | some s => strLe s r.ts)
  && (match q.endTs with | none => true | some e => strLe r.ts e)
  && (q.source == "" || r.source == q.source)
  && (q.endpoint == "" || r.endpoint == q.endpoint)
  && (q.clientIP == "" || r.clientIp == q.clientIP)
  && (q.contains == ""
      || (sqlLike ("%" ++ q.contains ++ "%") r.shareUrl
          || sqlLike ("%" ++ q.contains ++ "%") r.videoId))

/-- The LIMIT actually used by `storage.Query`:
`if limit <= 0 || limit > 200 { limit = 50 }`. -/
def effLimit (l : Int) : Int := if l ≤ 0 ∨ 200 < l then 50 else l

/-- The OFFSET actually used by `storage.Query`: negative becomes 0. -/
def effOffset (o : Int) : Int := if o < 0 then 0 else o

/-- `ORDER BY id DESC` (ids are unique, so any stable comparison sort models
SQLite's ordering). -/
def sortByIdDesc (l : List Row) : List Row :=
  List.insertionSort (fun a b => b.id ≤ a.id) l

/-- The reconstruction done in `storage.Query`'s scan loop: `Result` is
rebuilt only when one of the seven tested columns (`music_url` is not
tested) is non-empty, and the image list comes from `json.Unmarshal` with
the error ignored (so it stays empty when unmarshalling fails). -/
def rowToRecord (r : Row) : Record :=
  { id := r.id, timestamp := r.ts, endpoint := r.endpoint, source := r.source,
    input := ⟨r.shareUrl, r.videoId⟩, clientIP := r.clientIp,
    userAgent := r.userAgent,
    result :=
      if r.title ≠ "" ∨ r.videoUrl ≠ "" ∨ r.coverUrl ≠ "" ∨ r.imagesJson ≠ ""
          ∨ r.authorUid ≠ "" ∨ r.authorName ≠ "" ∨ r.authorAvatar ≠ "" then
        some { title := r.title, videoUrl := r.videoUrl, musicUrl := r.musicUrl,
               coverUrl := r.coverUrl,
               images := (jsonDecodeStrings r.imagesJson).getD [],
               author := ⟨r.authorUid, r.authorName, r.authorAvatar⟩ }
      else none,
    error := r.error }

/-- `storage.Query`: filter, `ORDER BY id DESC`, `LIMIT ? OFFSET ?`, then
the scan loop. -/
def queryRows (q : QueryOptions) (rows : List Row) : List Record :=
  (((sortByIdDesc (rows.filter (rowMatches q))).drop
      (effOffset q.offset).toNat).take (effLimit q.limit).toNat).map rowToRecord

/-! ### The two parse endpoints (`src/main.go`) -/

/-- The `{code, msg, data}` body (`HttpResponse` in `main.go`). -/
structure HttpResponse where
  code : Int
  msg : String
  data : Option VideoParseInfo
deriving DecidableEq

/-- Result pointer of the parser call: non-nil exactly on success. -/
def outcomeResult : Except String VideoParseInfo → Option VideoParseInfo
  | .ok v => some v
  | .error _ => none

/-- The `err.Error()` string stored by the handlers (empty on success). -/
def outcomeError : Except String VideoParseInfo → String
  | .ok _ => ""
  | .error e => e

/-- GET `/video/share/url/parse` handler: builds the JSON response (200 on
success, 201 with the error text on failure) and appends one audit record;
`o` is the outcome of `parser.ParseVideoShareUrlByRegexp(paramUrl)` and
`ts` the clock reading used by `Append`. -/
def shareUrlHandler (paramUrl ip ua ts : String)
    (o : Except String VideoParseInfo) (st : Store) : HttpResponse × Store :=
  let jsonRes : HttpResponse :=
    match o with
    | .ok v => ⟨200, "解析成功", some v⟩
    | .error e => ⟨201, e, none⟩
  let st' := appendRecord st
    { id := 0, timestamp := "", endpoint := "/video/share/url/parse",
      source := "", input := ⟨paramUrl, ""⟩, clientIP := ip, userAgent := ua,
      result := outcomeResult o, error := outcomeError o } ts
  (jsonRes, st')

/-- GET `/video/id/parse` handler; `o` is the outcome of
`parser.ParseVideoId(source, videoId)`. -/
def videoIdHandler (videoId source ip ua ts : String)
    (o : Except String VideoParseInfo) (st : Store) : HttpResponse × Store :=
  let jsonRes : HttpResponse :=
    match o with
    | .ok v => ⟨200, "解析成功", some v⟩
    | .error e => ⟨201, e, none⟩
  let st' := appendRecord st
    { id := 0, timestamp := "", endpoint := "/video/id/parse",
      source := source, input := ⟨"", videoId⟩, clientIP := ip, userAgent := ua,
      result := outcomeResult o, error := outcomeError o } ts
  (jsonRes, st')

/-! ### The `/download` redirect cap -/

/-- The `CheckRedirect` hook installed by the `/download` handler: errors
once ten requests are already in `via`. -/
def checkRedirect (via : List Nat) : Option String :=
  if 10 ≤ via.length then some "stopped after 10 redirects" else none

/-- Go `net/http.Client` redirect loop, specialised to this hook: `via` is
the list of requests made so far, `remaining` the number of redirect
responses the upstream will still send before a terminal 200. Before each
hop the hook is consulted with the requests made so far. -/
def redirectLoop (via : List Nat) : Nat → Except String Unit
  | 0 => .ok ()
  | remaining + 1 =>
    match checkRedirect via with
    | some e => .error e
    | none => redirectLoop (via ++ [via.length]) remaining

/-- Outcome of fetching a chain with `hops` redirect responses followed by a
terminal 200 (the initial request is already in `via`). -/
def followChain (hops : Nat) : Except String Unit :=
  redirectLoop [0] hops

/-! ### Shared concrete fixtures -/

/-- A row with every TEXT column empty. -/
def emptyRow : Row :=
  ⟨0, "", "", "", "", "", "", "", "", "", "", "", "", "", "", "", ""⟩

/-- Query options with no filters and zero (defaulted) pagination. -/
def baseOpts : QueryOptions := ⟨none, none, "", "", "", "", 0, 0⟩

/-- A freshly initialised store (AUTOINCREMENT starts at 1). -/
def emptyStore : Store := ⟨[], 1⟩

/-- Invariant maintained by `appendRecord`: every stored id is below the
next AUTOINCREMENT key. -/
def rowsBelow (st : Store) : Prop := ∀ r ∈ st.rows, r.id < st.nextId

/-! ### Round trip of the `[]string` JSON codec -/

theorem escChar_length_pos (c : Char) : 1 ≤ (escChar c).length := by
  by_cases h1 : c = '"'
  · subst h1; decide
  by_cases h2 : c = '\\'
  · subst h2; decide
  by_cases h3 : c = '\n'
  · subst h3; decide
  by_cases h4 : c = '\r'
  · subst h4; decide
  by_cases h5 : c = '\t'
  · subst h5; decide
  by_cases h6 : c.toNat < 0x20
  · have e6 : escChar c
        = ['\\', 'u', '0', '0', hexDig (c.toNat / 16), hexDig (c.toNat % 16)] := by
      unfold escChar
      rw [if_neg h1, if_neg h2, if_neg h3, if_neg h4, if_neg h5, if_pos h6]
    rw [e6]; simp
  by_cases h7 : c = '<'
  · subst h7; decide
  by_cases h8 : c = '>'
  · subst h8; decide
  by_cases h9 : c = '&'
  · subst h9; decide
  by_cases h10 : c = Char.ofNat 0x2028
  · subst h10; decide
  by_cases h11 : c = Char.ofNat 0x2029
  · subst h11; decide
  · have e12 : escChar c = [c] := by
      unfold escChar
      rw [if_neg h1, if_neg h2, if_neg h3, if_neg h4, if_neg h5, if_neg h6,
        if_neg h7, if_neg h8, if_neg h9, if_neg h10, if_neg h11]
    rw [e12]; simp

theorem hexVal_hexDig : ∀ k, k < 16 → hexVal (hexDig k) = some k := by decide

theorem parseStrBody_esc (fuel : Nat) (c : Char) (rest : List Char) :
    parseStrBody (fuel + 1) (escChar c ++ rest)
      = (parseStrBody fuel rest).map (fun p => (c :: p.1, p.2)) := by
  by_cases h1 : c = '"'
  · subst h1; rfl
  by_cases h2 : c = '\\'
  · subst h2; rfl
  by_cases h3 : c = '\n'
  · subst h3; rfl
  by_cases h4 : c = '\r'
  · subst h4; rfl
  by_cases h5 : c = '\t'
  · subst h5; rfl
  by_cases h6 : c.toNat < 0x20
  · have hd : c.toNat / 16 < 16 := by omega
    have hm : c.toNat % 16 < 16 := by omega
    have e6 : escChar c
        = ['\\', 'u', '0', '0', hexDig (c.toNat / 16), hexDig (c.toNat % 16)] := by
      unfold escChar
      rw [if_neg h1, if_neg h2, if_neg h3, if_neg h4, if_neg h5, if_pos h6]
    have h0 : hexVal '0' = some 0 := rfl
    rw [e6]
    simp only [List.cons_append, List.nil_append]
    simp only [parseStrBody, reduceIte, hex4, h0,
      hexVal_hexDig _ hd, hexVal_hexDig _ hm]
    rw [show 0 * 4096 + 0 * 256 + c.toNat / 16 * 16 + c.toNat % 16 = c.toNat from by omega]
    rw [if_neg (show ¬(55296 ≤ c.toNat ∧ c.toNat < 56320) from by omega)]
    rw [show uDecode c.toNat = c from by
      unfold uDecode
      rw [if_pos (Or.inl (by omega))]
      exact Char.ofNat_toNat c]
    rw [if_neg (show ('\\' : Char) ≠ '"' from by decide)]
  by_cases h7 : c = '<'
  · subst h7; rfl
  by_cases h8 : c = '>'
  · subst h8; rfl
  by_cases h9 : c = '&'
  · subst h9; rfl
  by_cases h10 : c = Char.ofNat 0x2028
  · subst h10; rfl
  by_cases h11 : c = Char.ofNat 0x2029
  · subst h11; rfl
  · have e12 : escChar c = [c] := by
      unfold escChar
      rw [if_neg h1, if_neg h2, if_neg h3, if_neg h4, if_neg h5, if_neg h6,
        if_neg h7, if_neg h8, if_neg h9, if_neg h10, if_neg h11]
    rw [e12, List.singleton_append]
    simp only [parseStrBody]
    rw [if_neg h1, if_neg h2, if_neg h6]

theorem parseStrBody_encoded (s : List Char) :
    ∀ fuel rest, s.length < fuel →
      parseStrBody fuel ((s.map escChar).flatten ++ '"' :: rest) = some (s, rest) := by
  induction s with
  | nil =>
    intro fuel rest h
    match fuel with
    | f + 1 => simp [parseStrBody]
  | cons c s ih =>
    intro fuel rest h
    match fuel with
    | f + 1 =>
      simp only [List.map_cons, List.flatten_cons, List.append_assoc]
      rw [parseStrBody_esc, ih f rest (by simp at h; omega)]
      rfl

theorem length_le_flatten_esc (s : List Char) :
    s.length ≤ ((s.map escChar).flatten).length := by
  induction s with
  | nil => simp
  | cons c s ih =>
    have := escChar_length_pos c
    simp only [List.map_cons, List.flatten_cons, List.length_append, List.length_cons]
    omega

theorem parseStrBodyTop_encoded (s rest : List Char) :
    parseStrBodyTop ((s.map escChar).flatten ++ '"' :: rest) = some (s, rest) := by
  unfold parseStrBodyTop
  apply parseStrBody_encoded
  have := length_le_flatten_esc s
  simp only [List.length_append, List.length_cons]
  omega

theorem encodeItems_cons (x : List Char) (xs : List (List Char)) :
    encodeItems (x :: xs)
      = encodeJStr x ++ (match xs with | [] => [] | _ :: _ => ',' :: encodeItems xs) := by
  cases xs <;> simp [encodeItems]

theorem parseItems_encoded (l : List (List Char)) :
    ∀ fuel rest, l ≠ [] → l.length ≤ fuel →
      parseItems fuel (encodeItems l ++ ']' :: rest) = some (l, rest) := by
  induction l with
  | nil => intro _ _ h _; exact absurd rfl h
  | cons x xs ih =>
    intro fuel rest _ hlen
    match fuel with
    | f + 1 =>
      cases xs with
      | nil =>
        have hshape : encodeItems [x] ++ ']' :: rest
            = '"' :: ((x.map escChar).flatten ++ '"' :: ']' :: rest) := by
          simp [encodeItems, encodeJStr]
        rw [hshape]
        simp only [parseItems]
        rw [List.dropWhile_cons_of_neg (by decide)]
        simp only [reduceIte]
        rw [parseStrBodyTop_encoded x (']' :: rest)]
        simp only []
        rw [List.dropWhile_cons_of_neg (by decide)]
        simp only [eq_false (show (']' : Char) ≠ ',' from by decide), if_false, reduceIte]
      | cons y ys =>
        have hshape : encodeItems (x :: y :: ys) ++ ']' :: rest
            = '"' :: ((x.map escChar).flatten
                ++ '"' :: ',' :: (encodeItems (y :: ys) ++ ']' :: rest)) := by
          simp only [encodeItems_cons, encodeJStr, List.append_assoc, List.cons_append,
            List.singleton_append, List.nil_append]
        rw [hshape]
        simp only [parseItems]
        rw [List.dropWhile_cons_of_neg (by decide)]
        simp only [reduceIte]
        rw [parseStrBodyTop_encoded x (',' :: (encodeItems (y :: ys) ++ ']' :: rest))]
        simp only []
        rw [List.dropWhile_cons_of_neg (by decide)]
        simp only [reduceIte]
        rw [ih f rest (by simp) (by simp at hlen ⊢; omega)]

theorem length_le_encodeItems (l : List (List Char)) :
    l.length ≤ (encodeItems l).length := by
  induction l with
  | nil => simp [encodeItems]
  | cons x xs ih =>
    rw [encodeItems_cons]
    cases xs with
    | nil =>
      simp only [List.length_cons, List.length_nil, List.append_nil, encodeJStr,
        List.length_append]
      omega
    | cons y ys =>
      simp only [List.length_cons, List.length_append, encodeJStr] at ih ⊢
      omega

theorem parseJArr_encodeJArr (l : List (List Char)) :
    parseJArr (encodeJArr l) = some l := by
  cases l with
  | nil => rfl
  | cons x xs =>
    have hT : encodeItems (x :: xs) ++ [']']
        = '"' :: ((x.map escChar).flatten
            ++ '"' :: ((match xs with | [] => [] | _ :: _ => ',' :: encodeItems xs)
              ++ [']'])) := by
      rw [encodeItems_cons, encodeJStr]
      simp only [List.cons_append, List.append_assoc, List.singleton_append,
        List.nil_append]
    unfold encodeJArr parseJArr
    simp only [List.cons_append]
    rw [List.dropWhile_cons_of_neg (by decide)]
    simp only [reduceIte]
    rw [hT]
    rw [List.dropWhile_cons_of_neg (by decide)]
    simp only [eq_false (show ('"' : Char) ≠ ']' from by decide), if_false]
    rw [← hT]
    rw [parseItems_encoded (x :: xs) _ [] (by simp)
      (by
        have h1 := length_le_encodeItems (x :: xs)
        simp only [List.length_append, List.length_cons, List.length_nil] at h1 ⊢
        omega)]
    rfl

theorem jsonDecode_encode (l : List String) :
    jsonDecodeStrings (jsonEncodeStrings l) = some l := by
  unfold jsonDecodeStrings jsonEncodeStrings
  rw [show (String.mk (encodeJArr (l.map String.data))).data
        = encodeJArr (l.map String.data) from rfl]
  rw [parseJArr_encodeJArr]
  show some ((l.map String.data).map String.mk) = some l
  congr 1
  rw [List.map_map]
  exact List.map_id l

/-! ### `LIKE` and substring lemmas -/

theorem leadEq_likeMatch (c : List Char) :
    ∀ t, leadEq c t = true → likeMatch (c ++ ['%']) t = true := by
  induction c with
  | nil =>
    intro t _
    show likeMatch ('%' :: []) t = true
    simp only [likeMatch, reduceIte]
    rw [List.any_eq_true]
    exact ⟨[], (List.mem_tails _ _).mpr List.nil_suffix,
      by show likeMatch [] [] = true; rfl⟩
  | cons a as ih =>
    intro t h
    cases t with
    | nil => simp [leadEq] at h
    | cons b bs =>
      have h' : (a == b) = true ∧ leadEq as bs = true := by
        simpa [leadEq, Bool.and_eq_true] using h
      have hab : a = b := beq_iff_eq.mp h'.1
      subst hab
      show likeMatch (a :: (as ++ ['%'])) (a :: bs) = true
      by_cases hp : a = '%'
      · subst hp
        simp only [likeMatch, reduceIte]
        rw [List.any_eq_true]
        refine ⟨bs, ?_, ih bs h'.2⟩
        rw [List.tails_cons]
        exact List.mem_cons_of_mem _ ((List.mem_tails _ _).mpr (List.suffix_refl bs))
      · simp only [likeMatch, if_neg hp]
        rw [Bool.and_eq_true]
        refine ⟨?_, ih bs h'.2⟩
        by_cases hu : a = '_'
        · rw [if_pos hu]
        · rw [if_neg hu]; exact beq_self_eq_true _

theorem containsSeq_likeMatch (c u : List Char) (h : containsSeq c u = true) :
    likeMatch ('%' :: (c ++ ['%'])) u = true := by
  obtain ⟨t, ht, hlead⟩ := List.any_eq_true.mp h
  simp only [likeMatch, reduceIte]
  rw [List.any_eq_true]
  exact ⟨t, ht, leadEq_likeMatch c t hlead⟩

theorem sqlLike_contains (c u : String) (h : containsStr c u = true) :
    sqlLike ("%" ++ c ++ "%") u = true := by
  unfold sqlLike
  have hdata : ("%" ++ c ++ "%").data = '%' :: (c.data ++ ['%']) := by
    simp [String.data_append]
  rw [hdata]
  exact containsSeq_likeMatch c.data u.data h

/-! ### Sorting lemmas (`ORDER BY id DESC`) -/

instance : IsTotal Row (fun a b => b.id ≤ a.id) := ⟨fun a b => Nat.le_total b.id a.id⟩

instance : IsTrans Row (fun a b => b.id ≤ a.id) :=
  ⟨fun _ _ _ hab hbc => Nat.le_trans hbc hab⟩

theorem sortByIdDesc_sorted (l : List Row) :
    List.Pairwise (fun a b => b.id ≤ a.id) (sortByIdDesc l) :=
  List.sorted_insertionSort _ l

theorem sortByIdDesc_perm (l : List Row) : (sortByIdDesc l).Perm l :=
  List.perm_insertionSort _ l

theorem sortByIdDesc_append_big (l : List Row) (x : Row)
    (h : ∀ y ∈ l, y.id < x.id) :
    sortByIdDesc (l ++ [x]) = x :: sortByIdDesc l := by
  induction l with
  | nil => rfl
  | cons a l ih =>
    have ha : a.id < x.id := h a (List.mem_cons_self a l)
    have ih' := ih (fun y hy => h y (List.mem_cons_of_mem a hy))
    simp only [sortByIdDesc] at ih' ⊢
    rw [List.cons_append]
    simp only [List.insertionSort]
    rw [ih']
    simp only [List.orderedInsert]
    rw [if_neg (by omega)]

/-! ### `storage.Query` helper lemmas -/

theorem effLimit_toNat_pos (L : Int) : 0 < (effLimit L).toNat := by
  unfold effLimit; split <;> omega

theorem queryRows_append_head (q : QueryOptions) (rows : List Row) (x : Row)
    (hoff : q.offset = 0) (hmax : ∀ r ∈ rows, r.id < x.id)
    (hm : rowMatches q x = true) :
    (queryRows q (rows ++ [x])).head? = some (rowToRecord x) := by
  unfold queryRows
  rw [List.filter_append, List.filter_cons, if_pos hm, List.filter_nil]
  rw [sortByIdDesc_append_big _ x (fun y hy => hmax y (List.mem_of_mem_filter hy))]
  rw [hoff]
  rw [show (effOffset (0 : Int)).toNat = 0 from rfl, List.drop_zero]
  obtain ⟨m, hm2⟩ : ∃ m, (effLimit q.limit).toNat = m + 1 :=
    ⟨_, (Nat.succ_pred_eq_of_pos (effLimit_toNat_pos q.limit)).symm⟩
  rw [hm2, List.take_succ_cons, List.map_cons, List.head?_cons]

theorem rowMatches_no_filters (c : String) (L : Int) (r : Row)
    (h : c ≠ "" → (sqlLike ("%" ++ c ++ "%") r.shareUrl = true
        ∨ sqlLike ("%" ++ c ++ "%") r.videoId = true)) :
    rowMatches ⟨none, none, "", "", c, "", L, 0⟩ r = true := by
  by_cases hc : c = ""
  · subst hc; rfl
  · have hne : (c == "") = false := by
      rw [beq_eq_false_iff_ne]; exact hc
    cases h hc with
    | inl h1 => unfold rowMatches; simp [hne, h1]
    | inr h2 => unfold rowMatches; simp [hne, h2]

theorem rowMatches_baseOpts (x : Row) : rowMatches baseOpts x = true := rfl

theorem mkRow_id (nid : Nat) (ts : String) (rec : Record) :
    (mkRow nid ts rec).id = nid := by
  cases h : rec.result <;> simp [mkRow, h]

theorem mkRow_shareUrl (nid : Nat) (ts : String) (rec : Record) :
    (mkRow nid ts rec).shareUrl = rec.input.shareURL := by
  cases h : rec.result <;> simp [mkRow, h]

theorem jsonEncode_ne_empty (l : List String) : jsonEncodeStrings l ≠ "" := by
  unfold jsonEncodeStrings encodeJArr
  intro h
  have h2 := congrArg String.data h
  simp at h2

/-- Side condition under which `Query`'s scan loop reproduces the appended
result exactly: a present result must have one of the seven reconstructed
trigger fields non-empty (`MusicUrl` alone does not survive, see C9). -/
def resultOk (rec : Record) : Prop :=
  match rec.result with
  | none => True
  | some r => r.title ≠ "" ∨ r.videoUrl ≠ "" ∨ r.coverUrl ≠ "" ∨ r.images ≠ []
      ∨ r.author.uid ≠ "" ∨ r.author.name ≠ "" ∨ r.author.avatar ≠ ""

theorem rowToRecord_mkRow (nid : Nat) (ts : String) (rec : Record)
    (htrim : goTrimSpace rec.error = rec.error) (hres : resultOk rec) :
    rowToRecord (mkRow nid ts rec)
      = { id := nid, timestamp := ts, endpoint := rec.endpoint,
          source := rec.source, input := rec.input, clientIP := rec.clientIP,
          userAgent := rec.userAgent, result := rec.result,
          error := rec.error } := by
  cases hr : rec.result with
  | none =>
    simp only [mkRow, rowToRecord, hr]
    rw [if_neg (by simp)]
    rw [htrim]
  | some r =>
    have hres' : r.title ≠ "" ∨ r.videoUrl ≠ "" ∨ r.coverUrl ≠ "" ∨ r.images ≠ []
        ∨ r.author.uid ≠ "" ∨ r.author.name ≠ "" ∨ r.author.avatar ≠ "" := by
      have := hres
      unfold resultOk at this
      rw [hr] at this
      exact this
    simp only [mkRow, rowToRecord, hr]
    have hcond : r.title ≠ "" ∨ r.videoUrl ≠ "" ∨ r.coverUrl ≠ ""
        ∨ (if 0 < r.images.length then jsonEncodeStrings r.images else "") ≠ ""
        ∨ r.author.uid ≠ "" ∨ r.author.name ≠ "" ∨ r.author.avatar ≠ "" := by
      rcases hres' with h | h | h | h | h | h | h
      · exact Or.inl h
      · exact Or.inr (Or.inl h)
      · exact Or.inr (Or.inr (Or.inl h))
      · refine Or.inr (Or.inr (Or.inr (Or.inl ?_)))
        rw [if_pos (by cases him : r.images with
          | nil => exact absurd him h
          | cons a as => simp [him])]
        exact jsonEncode_ne_empty r.images
      · exact Or.inr (Or.inr (Or.inr (Or.inr (Or.inl h))))
      · exact Or.inr (Or.inr (Or.inr (Or.inr (Or.inr (Or.inl h)))))
      · exact Or.inr (Or.inr (Or.inr (Or.inr (Or.inr (Or.inr h)))))
    rw [if_pos hcond]
    have himg : (jsonDecodeStrings
          (if 0 < r.images.length then jsonEncodeStrings r.images else "")).getD []
        = r.images := by
      by_cases he : r.images = []
      · rw [he]; rfl
      · rw [if_pos (by cases him : r.images with
          | nil => exact absurd him he
          | cons a as => simp [him])]
        rw [jsonDecode_encode]; rfl
    rw [himg, htrim]

/-! ### Redirect-loop lemmas -/

theorem redirectLoop_ok (rem : Nat) :
    ∀ via : List Nat, via.length + rem ≤ 10 → redirectLoop via rem = .ok () := by
  induction rem with
  | zero => intro via h; rfl
  | succ k ih =>
    intro via h
    unfold redirectLoop checkRedirect
    rw [if_neg (by omega)]
    exact ih _ (by simp only [List.length_append, List.length_cons,
      List.length_nil]; omega)

theorem redirectLoop_err (rem : Nat) :
    ∀ via : List Nat, via.length ≤ 10 → 10 < via.length + rem →
      redirectLoop via rem = .error "stopped after 10 redirects" := by
  induction rem with
  | zero => intro via h1 h2; exact absurd h2 (by omega)
  | succ k ih =>
    intro via h1 h2
    by_cases hv : via.length = 10
    · unfold redirectLoop checkRedirect
      rw [if_pos (by omega)]
    · unfold redirectLoop checkRedirect
      rw [if_neg (by omega)]
      exact ih _
        (by simp only [List.length_append, List.length_cons, List.length_nil]; omega)
        (by simp only [List.length_append, List.length_cons, List.length_nil]; omega)

/-! ### Claims -/

/-- Claim C1 (amended): `storage.Query` replaces a requested limit above 200
with the default 50 — not with a clamp to 200 — so it returns at most 50
records (a fortiori at most 200). -/
theorem c1_limit_over_200_defaults (q : QueryOptions) (rows : List Row)
    (hl : 200 < q.limit) :
    effLimit q.limit = 50 ∧ (queryRows q rows).length ≤ 50 := by
  have h1 : effLimit q.limit = 50 := by
    unfold effLimit; rw [if_pos (Or.inr hl)]
  refine ⟨h1, ?_⟩
  unfold queryRows
  rw [List.length_map, h1]
  exact le_trans (List.length_take_le _ _) (by decide)

/-- Claim C1 counterexample: with 60 matching rows and `limit=500`, Query
returns 50 rows, not the 60 that a clamp of the limit to 200 would give;
the effective limit is 50, not 200. -/
theorem c1_counterexample :
    effLimit 500 = 50 ∧ effLimit 500 ≠ 200
    ∧ (queryRows { baseOpts with limit := 500 }
        ((List.range 60).map (fun i => { emptyRow with id := i }))).length = 50
    ∧ ((List.range 60).map (fun i => { emptyRow with id := i })).length = 60
    ∧ (queryRows { baseOpts with limit := 500 }
        ((List.range 60).map (fun i => { emptyRow with id := i }))).length ≠ 60 := by
  refine ⟨rfl, by decide, by decide, by decide, by decide⟩

/-- Claim C1 witness: the amended theorem applied at `limit = 500` over the
empty table. -/
theorem c1_witness :
    effLimit ({ baseOpts with limit := 500 } : QueryOptions).limit = 50
    ∧ (queryRows { baseOpts with limit := 500 } []).length ≤ 50 :=
  c1_limit_over_200_defaults { baseOpts with limit := 500 } [] (by decide)

/-- Claim C2 (amended): appending a record and querying with a `Contains`
filter that is a literal substring of its share URL returns that record as
the newest hit, with every flattened field and the JSON-round-tripped image
list equal to the appended values — provided the appended error message is
already whitespace-trimmed and a present result has one of the seven
reconstructed fields non-empty (otherwise trimming, resp. the nil-result
reconstruction of C9, changes the record). -/
theorem c2_round_trip (st : Store) (rec : Record) (ts c : String) (L : Int)
    (hB : rowsBelow st)
    (hsub : containsStr c rec.input.shareURL = true)
    (htrim : goTrimSpace rec.error = rec.error)
    (hres : resultOk rec) :
    (queryRows ⟨none, none, "", "", c, "", L, 0⟩
        (appendRecord st rec ts).rows).head?
      = some { id := st.nextId, timestamp := ts, endpoint := rec.endpoint,
               source := rec.source, input := rec.input, clientIP := rec.clientIP,
               userAgent := rec.userAgent, result := rec.result,
               error := rec.error } := by
  rw [show (appendRecord st rec ts).rows = st.rows ++ [mkRow st.nextId ts rec] from rfl]
  rw [queryRows_append_head _ _ _ rfl
      (fun r hr => by rw [mkRow_id]; exact hB r hr)
      (rowMatches_no_filters c L _ (fun _ => Or.inl (by
        rw [mkRow_shareUrl]
        exact sqlLike_contains c rec.input.shareURL hsub)))]
  rw [rowToRecord_mkRow st.nextId ts rec htrim hres]

/-- Claim C2 counterexample: a record whose only populated result field is
`MusicUrl` and whose error has surrounding whitespace does not round-trip:
the returned record has a nil result (the music URL is gone) and a trimmed
error message. -/
theorem c2_counterexample :
    (queryRows { baseOpts with contains := "u" }
        (appendRecord emptyStore
          { id := 0, timestamp := "", endpoint := "e", source := "",
            input := ⟨"u", ""⟩, clientIP := "", userAgent := "",
            result := some ⟨"", "", "m", "", [], ⟨"", "", ""⟩⟩,
            error := " boom " } "t").rows).head?
      = some { id := 1, timestamp := "t", endpoint := "e", source := "",
               input := ⟨"u", ""⟩, clientIP := "", userAgent := "",
               result := none, error := "boom" }
    ∧ (none : Option VideoParseInfo)
        ≠ some ⟨"", "", "m", "", [], ⟨"", "", ""⟩⟩
    ∧ ("boom" : String) ≠ " boom "
    ∧ (match (none : Option VideoParseInfo) with
        | none => "" | some v => v.musicUrl)
      ≠ (match some (⟨"", "", "m", "", [], ⟨"", "", ""⟩⟩ : VideoParseInfo) with
        | none => "" | some v => v.musicUrl) := by
  refine ⟨by decide, by decide, by decide, by decide⟩

/-- Claim C2 witness: a concrete record with a two-image gallery result
round-trips through Append and a Contains query on a substring of its share
URL. -/
theorem c2_witness :
    (queryRows ⟨none, none, "", "", "douyin", "", 0, 0⟩
        (appendRecord emptyStore
          { id := 0, timestamp := "", endpoint := "/video/share/url/parse",
            source := "", input := ⟨"https://v.douyin.com/abc/", ""⟩,
            clientIP := "1.2.3.4", userAgent := "ua",
            result := some ⟨"title", "vu", "mu", "cu", ["i1", "i2"], ⟨"u", "n", "a"⟩⟩,
            error := "" } "2024-01-01T00:00:00Z").rows).head?
      = some { id := 1, timestamp := "2024-01-01T00:00:00Z",
               endpoint := "/video/share/url/parse", source := "",
               input := ⟨"https://v.douyin.com/abc/", ""⟩,
               clientIP := "1.2.3.4", userAgent := "ua",
               result := some ⟨"title", "vu", "mu", "cu", ["i1", "i2"], ⟨"u", "n", "a"⟩⟩,
               error := "" } :=
  c2_round_trip emptyStore
    { id := 0, timestamp := "", endpoint := "/video/share/url/parse",
      source := "", input := ⟨"https://v.douyin.com/abc/", ""⟩,
      clientIP := "1.2.3.4", userAgent := "ua",
      result := some ⟨"title", "vu", "mu", "cu", ["i1", "i2"], ⟨"u", "n", "a"⟩⟩,
      error := "" }
    "2024-01-01T00:00:00Z" "douyin" 0
    (by intro r hr; simp [emptyStore] at hr)
    (by decide) rfl (Or.inl (by decide))

/-- Claim C3: both parse endpoints answer `{code, msg, data}`: code 200 with
the resolved media as data on parser success, code 201 (a non-200
application code) with the parser's error message as msg on failure — the
error is never swallowed. -/
theorem c3_response_shape :
    (∀ paramUrl ip ua ts st (v : VideoParseInfo),
        (shareUrlHandler paramUrl ip ua ts (.ok v) st).1
          = ⟨200, "解析成功", some v⟩)
    ∧ (∀ paramUrl ip ua ts st e,
        (shareUrlHandler paramUrl ip ua ts (.error e) st).1 = ⟨201, e, none⟩)
    ∧ (∀ videoId source ip ua ts st (v : VideoParseInfo),
        (videoIdHandler videoId source ip ua ts (.ok v) st).1
          = ⟨200, "解析成功", some v⟩)
    ∧ (∀ videoId source ip ua ts st e,
        (videoIdHandler videoId source ip ua ts (.error e) st).1 = ⟨201, e, none⟩)
    ∧ (201 : Int) ≠ 200 :=
  ⟨fun _ _ _ _ _ _ => rfl, fun _ _ _ _ _ _ => rfl,
   fun _ _ _ _ _ _ _ => rfl, fun _ _ _ _ _ _ _ => rfl, by decide⟩

/-- Claim C4: a non-positive limit becomes the default 50 and a negative
offset becomes 0, so Query returns at most the first 50 matching records
(newest first, no rows skipped). -/
theorem c4_default_limit_offset (q : QueryOptions) (rows : List Row)
    (hl : q.limit ≤ 0) (ho : q.offset < 0) :
    effLimit q.limit = 50 ∧ effOffset q.offset = 0
    ∧ queryRows q rows
        = ((sortByIdDesc (rows.filter (rowMatches q))).take 50).map rowToRecord
    ∧ (queryRows q rows).length ≤ 50 := by
  have h1 : effLimit q.limit = 50 := by
    unfold effLimit; rw [if_pos (Or.inl hl)]
  have h2 : effOffset q.offset = 0 := by
    unfold effOffset; rw [if_pos ho]
  have h3 : queryRows q rows
      = ((sortByIdDesc (rows.filter (rowMatches q))).take 50).map rowToRecord := by
    unfold queryRows
    rw [h1, h2]
    rw [show ((50 : Int)).toNat = 50 from rfl, show ((0 : Int)).toNat = 0 from rfl,
      List.drop_zero]
  refine ⟨h1, h2, h3, ?_⟩
  rw [h3, List.length_map]
  exact List.length_take_le _ _

/-- Claim C4 witness: the theorem applied at `limit = 0`, `offset = -5` over
a one-row table. -/
theorem c4_witness :
    effLimit ({ baseOpts with offset := -5 } : QueryOptions).limit = 50
    ∧ effOffset ({ baseOpts with offset := -5 } : QueryOptions).offset = 0
    ∧ queryRows { baseOpts with offset := -5 } [{ emptyRow with id := 1 }]
        = ((sortByIdDesc ([{ emptyRow with id := 1 }].filter
            (rowMatches { baseOpts with offset := -5 }))).take 50).map rowToRecord
    ∧ (queryRows { baseOpts with offset := -5 } [{ emptyRow with id := 1 }]).length
        ≤ 50 :=
  c4_default_limit_offset { baseOpts with offset := -5 } [{ emptyRow with id := 1 }]
    (by decide) (by decide)

/-- Claim C5 (amended): every record Query returns passes every supplied
filter: timestamp within the Start/End range (SQLite TEXT order), equality
on source, endpoint and client IP, and the `LIKE '%contains%'` match on the
share URL or video id (LIKE-match, not literal containment: `%`/`_` in the
filter stay wildcards and matching is ASCII-case-insensitive). -/
theorem c5_filters (q : QueryOptions) (rows : List Row) (r : Record)
    (hr : r ∈ queryRows q rows) :
    (∀ s, q.start = some s → strLe s r.timestamp = true)
    ∧ (∀ e, q.endTs = some e → strLe r.timestamp e = true)
    ∧ (q.source ≠ "" → r.source = q.source)
    ∧ (q.endpoint ≠ "" → r.endpoint = q.endpoint)
    ∧ (q.clientIP ≠ "" → r.clientIP = q.clientIP)
    ∧ (q.contains ≠ "" →
        (sqlLike ("%" ++ q.contains ++ "%") r.input.shareURL = true
         ∨ sqlLike ("%" ++ q.contains ++ "%") r.input.videoID = true)) := by
  unfold queryRows at hr
  obtain ⟨row, hmem, hrow⟩ := List.mem_map.mp hr
  have h1 := (List.take_sublist _ _).subset hmem
  have h2 := (List.drop_sublist _ _).subset h1
  have h3 : row ∈ rows.filter (rowMatches q) := (sortByIdDesc_perm _).subset h2
  have h4 : rowMatches q row = true := (List.mem_filter.mp h3).2
  subst hrow
  unfold rowMatches at h4
  simp only [Bool.and_eq_true, Bool.or_eq_true] at h4
  obtain ⟨⟨⟨⟨⟨hstart, hend⟩, hsource⟩, hendp⟩, hip⟩, hcont⟩ := h4
  refine ⟨?_, ?_, ?_, ?_, ?_, ?_⟩
  · intro s hs
    rw [hs] at hstart
    exact hstart
  · intro e he
    rw [he] at hend
    exact hend
  · intro hs
    cases hsource with
    | inl h => exact absurd (beq_iff_eq.mp h) hs
    | inr h => exact beq_iff_eq.mp h
  · intro hs
    cases hendp with
    | inl h => exact absurd (beq_iff_eq.mp h) hs
    | inr h => exact beq_iff_eq.mp h
  · intro hs
    cases hip with
    | inl h => exact absurd (beq_iff_eq.mp h) hs
    | inr h => exact beq_iff_eq.mp h
  · intro hs
    cases hcont with
    | inl h => exact absurd (beq_iff_eq.mp h) hs
    | inr h => exact h

/-- Claim C5 counterexample: the Contains filter `a_c` returns the record
with share URL `abc`, although neither its share URL nor its (empty) video
id contains the literal string `a_c` — the `_` acts as a LIKE wildcard. -/
theorem c5_counterexample :
    queryRows { baseOpts with contains := "a_c" }
        [{ emptyRow with id := 1, shareUrl := "abc" }]
      = [rowToRecord { emptyRow with id := 1, shareUrl := "abc" }]
    ∧ (rowToRecord { emptyRow with id := 1, shareUrl := "abc" }).input.shareURL = "abc"
    ∧ (rowToRecord { emptyRow with id := 1, shareUrl := "abc" }).input.videoID = ""
    ∧ containsStr "a_c" "abc" = false
    ∧ containsStr "a_c" "" = false := by
  refine ⟨by decide, by decide, by decide, by decide, by decide⟩

/-- Query options exercising every filter at once (for the C5 witness). -/
def q5w : QueryOptions := ⟨some "a", some "z", "s", "e", "b", "i", 0, 0⟩

/-- A row matching `q5w` (for the C5 witness). -/
def row5w : Row :=
  { emptyRow with
    id := 1, ts := "m", source := "s", endpoint := "e",
    clientIp := "i", shareUrl := "xbz" }

/-- Claim C5 witness: the amended theorem applied to a query with every
filter supplied and the one matching record. -/
theorem c5_witness :
    (∀ s, q5w.start = some s → strLe s (rowToRecord row5w).timestamp = true)
    ∧ (∀ e, q5w.endTs = some e → strLe (rowToRecord row5w).timestamp e = true)
    ∧ (q5w.source ≠ "" → (rowToRecord row5w).source = q5w.source)
    ∧ (q5w.endpoint ≠ "" → (rowToRecord row5w).endpoint = q5w.endpoint)
    ∧ (q5w.clientIP ≠ "" → (rowToRecord row5w).clientIP = q5w.clientIP)
    ∧ (q5w.contains ≠ "" →
        (sqlLike ("%" ++ q5w.contains ++ "%") (rowToRecord row5w).input.shareURL = true
         ∨ sqlLike ("%" ++ q5w.contains ++ "%") (rowToRecord row5w).input.videoID
            = true)) :=
  c5_filters q5w [row5w] (rowToRecord row5w) (by decide)

/-- Claim C6: for a table whose ids increase in insertion order (as
`Append`'s AUTOINCREMENT keys do), every Query result is strictly ordered
newest-first: a record appended later (larger id) always precedes an
earlier one. -/
theorem c6_newest_first (q : QueryOptions) (rows : List Row)
    (h : List.Pairwise (fun a b => a.id < b.id) rows) :
    List.Pairwise (fun a b : Record => b.id < a.id) (queryRows q rows) := by
  unfold queryRows
  rw [List.pairwise_map]
  apply List.Pairwise.sublist (List.take_sublist _ _)
  apply List.Pairwise.sublist (List.drop_sublist _ _)
  have hfilt : List.Pairwise (fun a b : Row => a.id < b.id)
      (rows.filter (rowMatches q)) := h.filter _
  have hsorted := sortByIdDesc_sorted (rows.filter (rowMatches q))
  have hne : List.Pairwise (fun a b : Row => a.id ≠ b.id)
      (sortByIdDesc (rows.filter (rowMatches q))) := by
    have hne0 : List.Pairwise (fun a b : Row => a.id ≠ b.id)
        (rows.filter (rowMatches q)) := hfilt.imp (fun hab => Nat.ne_of_lt hab)
    exact (List.Perm.pairwise_iff (fun hxy => Ne.symm hxy)
      (sortByIdDesc_perm _)).mpr hne0
  exact (hsorted.and hne).imp (fun hab => lt_of_le_of_ne hab.1 hab.2.symm)

/-- Claim C6 witness: the theorem applied to a two-row table appended in id
order; the query result lists the id-2 row before the id-1 row. -/
theorem c6_witness :
    List.Pairwise (fun a b : Row => a.id < b.id)
      [{ emptyRow with id := 1 }, { emptyRow with id := 2 }]
    ∧ List.Pairwise (fun a b : Record => b.id < a.id)
        (queryRows baseOpts [{ emptyRow with id := 1 }, { emptyRow with id := 2 }]) :=
  ⟨by decide, c6_newest_first baseOpts _ (by decide)⟩

/-- Claim C7: after each resolution attempt, each handler appends exactly one
audit row holding the timestamp, endpoint name, platform source (recorded
for the id endpoint; the share endpoint stores an empty source), the
original input, client IP, user agent, the flattened result columns on
success, and the whitespace-trimmed error message on failure. -/
theorem c7_audit_entry :
    (∀ paramUrl ip ua ts st (v : VideoParseInfo),
      ((shareUrlHandler paramUrl ip ua ts (.ok v) st).2).rows
        = st.rows ++ [{
            id := st.nextId, ts := ts,
            endpoint := "/video/share/url/parse", source := "",
            shareUrl := paramUrl, videoId := "", clientIp := ip, userAgent := ua,
            title := v.title, videoUrl := v.videoUrl, musicUrl := v.musicUrl,
            coverUrl := v.coverUrl,
            imagesJson := if 0 < v.images.length then jsonEncodeStrings v.images else "",
            authorUid := v.author.uid, authorName := v.author.name,
            authorAvatar := v.author.avatar, error := "" }])
    ∧ (∀ paramUrl ip ua ts st e,
      ((shareUrlHandler paramUrl ip ua ts (.error e) st).2).rows
        = st.rows ++ [{
            id := st.nextId, ts := ts,
            endpoint := "/video/share/url/parse", source := "",
            shareUrl := paramUrl, videoId := "", clientIp := ip, userAgent := ua,
            title := "", videoUrl := "", musicUrl := "", coverUrl := "",
            imagesJson := "", authorUid := "", authorName := "",
            authorAvatar := "", error := goTrimSpace e }])
    ∧ (∀ videoId source ip ua ts st (v : VideoParseInfo),
      ((videoIdHandler videoId source ip ua ts (.ok v) st).2).rows
        = st.rows ++ [{
            id := st.nextId, ts := ts, endpoint := "/video/id/parse",
            source := source, shareUrl := "", videoId := videoId, clientIp := ip,
            userAgent := ua, title := v.title, videoUrl := v.videoUrl,
            musicUrl := v.musicUrl, coverUrl := v.coverUrl,
            imagesJson := if 0 < v.images.length then jsonEncodeStrings v.images else "",
            authorUid := v.author.uid, authorName := v.author.name,
            authorAvatar := v.author.avatar, error := "" }])
    ∧ (∀ videoId source ip ua ts st e,
      ((videoIdHandler videoId source ip ua ts (.error e) st).2).rows
        = st.rows ++ [{
            id := st.nextId, ts := ts, endpoint := "/video/id/parse",
            source := source, shareUrl := "", videoId := videoId, clientIp := ip,
            userAgent := ua, title := "", videoUrl := "", musicUrl := "",
            coverUrl := "", imagesJson := "", authorUid := "", authorName := "",
            authorAvatar := "", error := goTrimSpace e }]) :=
  ⟨fun _ _ _ _ _ _ => rfl, fun _ _ _ _ _ _ => rfl,
   fun _ _ _ _ _ _ _ => rfl, fun _ _ _ _ _ _ _ => rfl⟩

/-- Claim C8 (amended): the `/download` redirect policy allows at most 9
followed redirects: chains of 0–9 hops to a terminal 200 succeed, and 10 or
more hops fail with "stopped after 10 redirects" (the hook errors once 10
requests have been made, i.e. before the 10th hop). -/
theorem c8_redirect_cap (h : Nat) :
    (h ≤ 9 → followChain h = .ok ())
    ∧ (10 ≤ h → followChain h = .error "stopped after 10 redirects") :=
  ⟨fun hh => redirectLoop_ok h [0] (by simp; omega),
   fun hh => redirectLoop_err h [0] (by simp) (by simp; omega)⟩

/-- Claim C8 counterexample: a chain of exactly 10 hops — which the claim
says reaches the terminal 200 successfully — fails with the
too-many-redirects error. -/
theorem c8_counterexample :
    followChain 10 = .error "stopped after 10 redirects"
    ∧ followChain 10 ≠ .ok () := by
  refine ⟨rfl, ?_⟩
  intro hcontra
  rw [show followChain 10 = Except.error "stopped after 10 redirects" from rfl]
    at hcontra
  exact Except.noConfusion hcontra

/-- Claim C8 witness: 9 hops succeed; 10 hops fail. -/
theorem c8_witness :
    followChain 9 = .ok ()
    ∧ followChain 10 = .error "stopped after 10 redirects" :=
  ⟨(c8_redirect_cap 9).1 (by decide), (c8_redirect_cap 10).2 (by decide)⟩

/-- Claim C9: Query rebuilds a non-nil result exactly when one of the seven
tested columns (title, video URL, cover URL, images JSON, author
uid/name/avatar — `music_url` is not tested) is non-empty; a record whose
only populated result field was MusicUrl is returned with a nil result, so
the music URL is lost and the record does not round-trip. -/
theorem c9_music_only_lost :
    (∀ row : Row,
        ((rowToRecord row).result ≠ none
          ↔ (row.title ≠ "" ∨ row.videoUrl ≠ "" ∨ row.coverUrl ≠ ""
              ∨ row.imagesJson ≠ "" ∨ row.authorUid ≠ "" ∨ row.authorName ≠ ""
              ∨ row.authorAvatar ≠ "")))
    ∧ (∀ (st : Store) (ts m : String) (rec : Record),
        rowsBelow st →
        rec.result = some ⟨"", "", m, "", [], ⟨"", "", ""⟩⟩ →
        ∃ out, (queryRows baseOpts (appendRecord st rec ts).rows).head? = some out
          ∧ out.result = none ∧ out.result ≠ rec.result) := by
  constructor
  · intro row
    simp only [rowToRecord]
    split
    · rename_i hcond
      exact iff_of_true (by simp) hcond
    · rename_i hcond
      exact iff_of_false (by simp) hcond
  · intro st ts m rec hB hres
    refine ⟨rowToRecord (mkRow st.nextId ts rec), ?_, ?_, ?_⟩
    · rw [show (appendRecord st rec ts).rows = st.rows ++ [mkRow st.nextId ts rec]
        from rfl]
      exact queryRows_append_head baseOpts st.rows (mkRow st.nextId ts rec) rfl
        (fun r hr => by rw [mkRow_id]; exact hB r hr)
        (rowMatches_baseOpts _)
    · simp [rowToRecord, mkRow, hres]
    · rw [show (rowToRecord (mkRow st.nextId ts rec)).result = none from by
        simp [rowToRecord, mkRow, hres]]
      rw [hres]
      simp

/-- Claim C9 witness: the music-only record appended to a fresh store comes
back from an unfiltered query with a nil result. -/
theorem c9_witness :
    ∃ out, (queryRows baseOpts (appendRecord emptyStore
        { id := 0, timestamp := "", endpoint := "", source := "",
          input := ⟨"", ""⟩, clientIP := "", userAgent := "",
          result := some ⟨"", "", "m", "", [], ⟨"", "", ""⟩⟩,
          error := "" } "t").rows).head? = some out
      ∧ out.result = none
      ∧ out.result ≠ ({
          id := 0, timestamp := "", endpoint := "", source := "",
          input := ⟨"", ""⟩, clientIP := "", userAgent := "",
          result := some ⟨"", "", "m", "", [], ⟨"", "", ""⟩⟩,
          error := "" } : Record).result :=
  c9_music_only_lost.2 emptyStore "t" "m"
    { id := 0, timestamp := "", endpoint := "", source := "",
      input := ⟨"", ""⟩, clientIP := "", userAgent := "",
      result := some ⟨"", "", "m", "", [], ⟨"", "", ""⟩⟩, error := "" }
    (by intro r hr; simp [emptyStore] at hr) rfl

/-- Claim C10: the Contains filter becomes the unescaped LIKE pattern
`'%' ++ contains ++ '%'`, so a `%` inside the filter acts as a wildcard:
Contains `a%c` returns the record whose share URL is `axxc` although
neither its share URL nor its (empty) video id contains the literal string
`a%c`. -/
theorem c10_like_wildcards :
    queryRows { baseOpts with contains := "a%c" }
        [{ emptyRow with id := 1, shareUrl := "axxc" }]
      = [rowToRecord { emptyRow with id := 1, shareUrl := "axxc" }]
    ∧ (rowToRecord { emptyRow with id := 1, shareUrl := "axxc" }).input.shareURL
        = "axxc"
    ∧ (rowToRecord { emptyRow with id := 1, shareUrl := "axxc" }).input.videoID = ""
    ∧ containsStr "a%c" "axxc" = false
    ∧ containsStr "a%c" "" = false
    ∧ sqlLike ("%" ++ "a%c" ++ "%") "axxc" = true := by
  refine ⟨by decide, by decide, by decide, by decide, by decide, by decide⟩

end ParseVideo
